import Mathlib

/-!
Verification of the imbalance-ratio monitoring system.

The development shallowly embeds the core of the repository:
- the per-symbol order-book reconstruction
  (`binance_client.py`, `BinanceWebSocketClient._update_orderbook`);
- the snapshot replacement performed in `BinanceWebSocketClient.start`;
- the change gate inside `start.on_message` deciding whether to forward a
  top-of-book snapshot downstream;
- `calculate_imbalance_ratio` (`imbalance_calculator.py`);
- the alert gate in `ImbalanceMonitor._handle_orderbook_update` (`main.py`);
- the notification throttle in `TelegramNotifier.send_notification`
  (`telegram_notifier.py`).

Numeric values (Python floats) are modelled as rationals; timestamps are
rationals as well.  The external Telegram send is abstracted as a boolean
oracle: the embedding takes the outcome of the external call as a parameter
and models everything around it exactly as the source does.  Python dicts
keyed by price are modelled as association lists with unique keys (the
operations below preserve key uniqueness exactly as a dict does); dicts
keyed by symbol are modelled as functions from strings to optional values,
since the source reads them with `.get` defaults.
-/

/-- Python's `abs` on rationals, written so that it unfolds by cases. -/
def rabs (q : ℚ) : ℚ := if q < 0 then -q else q

theorem rabs_eq_abs (q : ℚ) : rabs q = |q| := by
  unfold rabs
  rcases lt_or_ge q 0 with h | h
  · simp [h, abs_of_neg h]
  · simp [not_lt.mpr h, abs_of_nonneg h]

/-! ## Order-book store (`binance_client.py`) -/

/-- One side of a book: the Python dict `price → quantity`, modelled as an
association list in insertion order. -/
abbrev Side := List (ℚ × ℚ)

/-- Python dict lookup `side.get(p)`: the value at the first matching key. -/
def sideLookup (side : Side) (p : ℚ) : Option ℚ :=
  (side.find? (fun e => decide (e.1 = p))).map (fun e => e.2)

/-- Python dict assignment `side[p] = q`: replace the value at an existing
key, otherwise append the new entry. -/
def sideUpsert (side : Side) (p q : ℚ) : Side :=
  match side with
  | [] => [(p, q)]
  | e :: rest => if e.1 = p then (p, q) :: rest else e :: sideUpsert rest p q

/-- Python `side.pop(p, None)`: drop the entry with key `p` if present. -/
def sideRemove (side : Side) (p : ℚ) : Side :=
  side.filter (fun e => decide (e.1 ≠ p))

/-- One raw delta entry.  `some (price, qty)` is an entry whose price and
quantity both parse as floats; `none` is a malformed entry, for which
`float(...)` raises and `_update_orderbook` skips the entry. -/
abbrev RawEntry := Option (ℚ × ℚ)

/-- The per-entry body of the update loops in
`BinanceWebSocketClient._update_orderbook` (binance_client.py 214–239):
a malformed entry is skipped; `qty == 0` removes the price; anything else
upserts it. -/
def applySideEntry (side : Side) (e : RawEntry) : Side :=
  match e with
  | none => side
  | some (p, q) => if q = 0 then sideRemove side p else sideUpsert side p q

/-- A delta message: the parsed `bids`/`b` and `asks`/`a` entry lists. -/
structure Delta where
  bids : List RawEntry
  asks : List RawEntry

/-- A per-symbol order book: the two price-keyed dicts. -/
structure Book where
  bids : Side
  asks : Side
deriving DecidableEq, Repr

/-- Application of one delta to one book: both entry loops of
`_update_orderbook`. -/
def applyDelta (b : Book) (d : Delta) : Book :=
  ⟨d.bids.foldl applySideEntry b.bids, d.asks.foldl applySideEntry b.asks⟩

/-- The symbol-keyed store `self.orderbooks`. -/
abbrev Store := String → Option Book

/-- `BinanceWebSocketClient._update_orderbook` (binance_client.py 188–239):
if the symbol has no book, create an empty one, then apply the delta. -/
def update_orderbook (store : Store) (sym : String) (d : Delta) : Store :=
  let book := (store sym).getD ⟨[], []⟩
  fun s => if s = sym then some (applyDelta book d) else store s

/-- The dict comprehensions of `BinanceWebSocketClient.start`
(binance_client.py 64–67) building a fresh book from the snapshot lists:
every entry is inserted, zero quantities included. -/
def snapshotBook (bids asks : List (ℚ × ℚ)) : Book :=
  ⟨bids.foldl (fun side e => sideUpsert side e.1 e.2) [],
   asks.foldl (fun side e => sideUpsert side e.1 e.2) []⟩

/-- The snapshot branch of `BinanceWebSocketClient.start` (binance_client.py
60–76): when the fetch returned data, the symbol's book is replaced
wholesale; when the fetch failed (`None`), the store is left alone. -/
def startSnapshot (store : Store) (sym : String)
    (snapshot : Option (List (ℚ × ℚ) × List (ℚ × ℚ))) : Store :=
  match snapshot with
  | none => store
  | some (bs, aks) => fun s => if s = sym then some (snapshotBook bs aks) else store s

/-- `parse_orderbook_data` (binance_client.py 247–272): drop the message when
the symbol is empty or either side is an empty list. -/
def parse_orderbook_data (sym : String) (bids asks : List (ℚ × ℚ)) :
    Option (String × List (ℚ × ℚ) × List (ℚ × ℚ)) :=
  if sym = "" ∨ bids = [] ∨ asks = [] then none else some (sym, bids, asks)

/-! ## Change gate (`binance_client.py`, `start.on_message`, lines 125–160) -/

/-- A formatted top-of-book snapshot (`current_data`): ordered bid and ask
levels. -/
structure Snapshot where
  bids : List (ℚ × ℚ)
  asks : List (ℚ × ℚ)
deriving DecidableEq, Repr

/-- The per-symbol state behind `self.last_sent_data` and
`self.last_sent_time`; the source reads the time with default `0`. -/
structure ChangeState where
  last_sent_data : Option Snapshot
  last_sent_time : Option ℚ
deriving DecidableEq, Repr

/-- The `should_send` computation of `start.on_message`: first observation,
or the top-10 slice of either side changed, or at least five seconds have
elapsed since the last forward. -/
def should_send_snapshot (c : ChangeState) (snap : Snapshot) (now : ℚ) : Bool :=
  match c.last_sent_data with
  | none => true
  | some last =>
      (decide (last.bids.take 10 ≠ snap.bids.take 10) ||
        decide (last.asks.take 10 ≠ snap.asks.take 10)) ||
      decide (now - c.last_sent_time.getD 0 ≥ 5)

/-- The forwarding step of `start.on_message`: forward and record on a
positive decision, otherwise leave the state alone. -/
def changeGateStep (c : ChangeState) (snap : Snapshot) (now : ℚ) :
    Bool × ChangeState :=
  if should_send_snapshot c snap now then (true, ⟨some snap, some now⟩)
  else (false, c)

/-! ## Imbalance engine (`imbalance_calculator.py`) -/

/-- `calculate_imbalance_ratio` (imbalance_calculator.py 10–50) over parsed
levels: notional volumes over the top `top_n` levels of each side, `none`
when the total is zero, otherwise the signed ratio. -/
def calculate_imbalance_ratio (bids asks : List (ℚ × ℚ)) (top_n : ℕ) : Option ℚ :=
  let top_bids := if bids.length ≥ top_n then bids.take top_n else bids
  let top_asks := if asks.length ≥ top_n then asks.take top_n else asks
  let bid_volume := (top_bids.map (fun e => e.1 * e.2)).sum
  let ask_volume := (top_asks.map (fun e => e.1 * e.2)).sum
  let total_volume := bid_volume + ask_volume
  if total_volume = 0 then none
  else some ((bid_volume - ask_volume) / total_volume)

/-! ## Notification throttle (`telegram_notifier.py`) -/

/-- Per-symbol throttle state of `TelegramNotifier`:
`last_notification_time.get(symbol, 0)` and
`last_notification_value.get(symbol)`. -/
structure NotifierState where
  last_notification_time : Option ℚ
  last_notification_value : Option ℚ
deriving DecidableEq, Repr

/-- `TelegramNotifier.send_notification` (telegram_notifier.py 104–151) with
the external Telegram call abstracted by `externDelivered`: cooldown check
against the last time (default 0), minimum-delta check against the last
delivered value, then the send; the state advances only on success. -/
def send_notification (t : NotifierState) (value now : ℚ)
    (externDelivered : Bool) : Bool × NotifierState :=
  if now - t.last_notification_time.getD 0 < 10 then (false, t)
  else
    let blocked_by_value :=
      match t.last_notification_value with
      | none => false
      | some last => decide (rabs (value - last) < 0.0005)
    if blocked_by_value then (false, t)
    else if externDelivered then (true, ⟨some now, some value⟩)
    else (false, t)

/-! ## Alert gate (`main.py`, `ImbalanceMonitor._handle_orderbook_update`) -/

/-- Decision of the alert gate: `Alert` means the gate decided to notify
(main.py reaches the `telegram_notifier.send_notification` call), `Suppress`
means it did not. -/
inductive Decision where
  | Alert : Decision
  | Suppress : Decision
deriving DecidableEq, Repr

/-- Per-symbol alert-gate state kept by `ImbalanceMonitor` in `main.py`:
`last_imbalance_ratios.get(symbol)` (None when absent) and
`last_notification_time.get(symbol, 0)` (the source reads it with default 0,
so we keep the `Option` and apply `.getD 0` exactly where the source does). -/
structure AlertState where
  last_imbalance_ratio : Option ℚ
  last_notification_time : Option ℚ
deriving DecidableEq, Repr

/-- `ImbalanceMonitor._handle_orderbook_update` (main.py 94–152), the part
after the imbalance ratio has been computed, with the outcome of the
`send_notification` call abstracted by `delivered`.  Returns the decision
together with the successor state. -/
def evaluate (s : AlertState) (value threshold now : ℚ) (delivered : Bool) :
    Decision × AlertState :=
  let ratio_changed :=
    match s.last_imbalance_ratio with
    | none => true
    | some last => decide (rabs (value - last) > 0.0001)
  let exceeds_threshold := decide (rabs value > rabs threshold)
  if exceeds_threshold then
    let time_since_last := now - s.last_notification_time.getD 0
    let should_send := ratio_changed || decide (time_since_last ≥ 30)
    if should_send then
      if delivered then
        (Decision.Alert, ⟨some value, some now⟩)
      else
        (Decision.Alert, s)
    else
      (Decision.Suppress, s)
  else
    (Decision.Suppress, { s with last_imbalance_ratio := some value })

/-- Run `evaluate` over a list of `(value, now)` observations with a fixed
threshold, every attempted delivery succeeding; collect the decisions. -/
def runAlertGate (threshold : ℚ) : AlertState → List (ℚ × ℚ) → List Decision
  | _, [] => []
  | s, (v, t) :: rest =>
      let (d, s') := evaluate s v threshold t true
      d :: runAlertGate threshold s' rest

/-- The full downstream step of `_handle_orderbook_update` for one exceeding
or non-exceeding value: the alert gate of `main.py` composed with the real
`send_notification` of `telegram_notifier.py`, the external Telegram call
abstracted by `externDelivered`.  `main.py` and `telegram_notifier.py` each
take `time.time()` moments apart; the embedding uses one `now` for both. -/
def handle_orderbook_update (a : AlertState) (t : NotifierState)
    (value threshold now : ℚ) (externDelivered : Bool) :
    AlertState × NotifierState :=
  let ratio_changed :=
    match a.last_imbalance_ratio with
    | none => true
    | some last => decide (rabs (value - last) > 0.0001)
  if decide (rabs value > rabs threshold) then
    let should_send :=
      ratio_changed || decide (now - a.last_notification_time.getD 0 ≥ 30)
    if should_send then
      match send_notification t value now externDelivered with
      | (true, t2) => (⟨some value, some now⟩, t2)
      | (false, t2) => (a, t2)
    else (a, t)
  else ({ a with last_imbalance_ratio := some value }, t)

/-- The spec's book invariant: every stored quantity on either side is
strictly positive. -/
def BookPositive (b : Book) : Prop :=
  (∀ e ∈ b.bids, 0 < e.2) ∧ (∀ e ∈ b.asks, 0 < e.2)

/-- Order-book states reachable through the source's constructors under the
data-model conditions: an initial snapshot whose quantities are strictly
positive, the empty book `_update_orderbook` creates for an unknown symbol,
and delta application where every well-formed entry carries a non-negative
quantity. -/
inductive ReachablePos : Book → Prop where
  | snap (bids asks : List (ℚ × ℚ))
      (hb : ∀ e ∈ bids, 0 < e.2) (ha : ∀ e ∈ asks, 0 < e.2) :
      ReachablePos (snapshotBook bids asks)
  | empty : ReachablePos ⟨[], []⟩
  | step (b : Book) (d : Delta)
      (hd : ∀ e ∈ d.bids ++ d.asks, ∀ pq, e = some pq → 0 ≤ pq.2) :
      ReachablePos b → ReachablePos (applyDelta b d)

/-! ## Theorems -/

/-- A failed external send leaves the notifier throttle state unchanged and
reports `false`, on every path through `send_notification`. -/
theorem send_notification_extern_false (t : NotifierState) (value now : ℚ) :
    send_notification t value now false = (false, t) := by
  unfold send_notification
  split
  · rfl
  · split
    · rfl
    · dsimp only
      split <;> rfl

/-- C1: `evaluate` is asymmetric in how it updates its tracked value.  When
`|value| ≤ |threshold|` it re-baselines `last_imbalance_ratio` to `value`,
leaves the alert time alone and suppresses; when `|value| > |threshold|` but
the value is within 0.0001 of the tracked value and fewer than 30 seconds
have passed since the recorded alert time (read with default 0, as the
source does), it suppresses and leaves both fields untouched. -/
theorem evaluate_asymmetry (s : AlertState) (value threshold now : ℚ)
    (delivered : Bool) :
    (rabs value ≤ rabs threshold →
      evaluate s value threshold now delivered =
        (Decision.Suppress, ⟨some value, s.last_notification_time⟩))
    ∧ (rabs value > rabs threshold →
      (∃ last, s.last_imbalance_ratio = some last ∧
        rabs (value - last) ≤ 0.0001) →
      now - s.last_notification_time.getD 0 < 30 →
      evaluate s value threshold now delivered = (Decision.Suppress, s)) := by
  constructor
  · intro h
    unfold evaluate
    simp [not_lt.mpr h]
  · rintro hex ⟨last, hlast, hdiff⟩ htime
    unfold evaluate
    simp [hlast, hex, not_lt.mpr hdiff, not_le.mpr htime]

/-- Witness for `evaluate_asymmetry`: a sub-threshold observation
re-baselines and suppresses; an over-threshold repeat inside the periodic
window suppresses and freezes the state. -/
theorem evaluate_asymmetry_witness :
    (evaluate ⟨some 0.2, some 7⟩ 0.3 0.5 100 true =
      (Decision.Suppress, ⟨some 0.3, some 7⟩))
    ∧ (evaluate ⟨some 0.6, some 90⟩ 0.6 0.5 100 true =
      (Decision.Suppress, ⟨some 0.6, some 90⟩)) :=
  ⟨(evaluate_asymmetry ⟨some 0.2, some 7⟩ 0.3 0.5 100 true).1
      (by norm_num [rabs]),
   (evaluate_asymmetry ⟨some 0.6, some 90⟩ 0.6 0.5 100 true).2
      (by norm_num [rabs]) ⟨0.6, rfl, by norm_num [rabs]⟩ (by norm_num)⟩

/-- C2: from the empty alert-gate state with threshold 0.5, the observation
sequence 0.3, 0.6, 0.6, 0.6, 0.2, 0.55 — taken at times 0..5, so every
observation is inside the 30-second periodic window — with every delivery
succeeding, produces the decisions Suppress, Alert, Suppress, Suppress,
Suppress, Alert. -/
theorem runAlertGate_sequence :
    runAlertGate 0.5 ⟨none, none⟩
      [(0.3, 0), (0.6, 1), (0.6, 2), (0.6, 3), (0.2, 4), (0.55, 5)] =
    [Decision.Suppress, Decision.Alert, Decision.Suppress, Decision.Suppress,
     Decision.Suppress, Decision.Alert] := by
  norm_num [runAlertGate, evaluate, rabs]

/-- C3: when the external send reports `delivered = false`, no throttle
state advances: the alert gate's tracked ratio and alert time and the
notifier's delivered time and value keep exactly their previous values.
(The send can only be reached when the value exceeds the threshold, which is
the hypothesis; on sub-threshold values no send happens at all.) -/
theorem handle_update_failed_delivery (a : AlertState) (t : NotifierState)
    (value threshold now : ℚ) (hex : rabs value > rabs threshold) :
    handle_orderbook_update a t value threshold now false = (a, t) := by
  unfold handle_orderbook_update
  simp only [hex, decide_True, if_true, send_notification_extern_false]
  split <;> rfl

/-- Witness for `handle_update_failed_delivery`: a changed over-threshold
value whose delivery fails leaves both states untouched. -/
theorem handle_update_failed_delivery_witness :
    handle_orderbook_update ⟨some 0.1, some 0⟩ ⟨none, none⟩ 0.6 0.5 20 false =
      (⟨some 0.1, some 0⟩, ⟨none, none⟩) :=
  handle_update_failed_delivery ⟨some 0.1, some 0⟩ ⟨none, none⟩ 0.6 0.5 20
    (by norm_num [rabs])

/-- C4 counterexample: with no prior delivery recorded for the symbol and
`now = 5`, the throttle does not proceed even though the external send would
succeed — the absent last-delivery time is read as 0, so the 10-second
cooldown clause fires.  This refutes the claim that the throttle proceeds
whenever no prior delivery exists. -/
theorem send_notification_no_prior_cex :
    send_notification ⟨none, none⟩ 0.6 5 true = (false, ⟨none, none⟩) := by
  norm_num [send_notification]

/-- C4 (amended): the throttle returns `false` and leaves the state alone
when `now` minus the last delivered time (0 when absent) is below 10, or
when a previously delivered value exists within 0.0005 of the value;
otherwise it proceeds to the external send, returns its outcome, and
advances `last_notification_time`/`last_notification_value` exactly when the
send succeeds. -/
theorem send_notification_gate_spec (t : NotifierState) (value now : ℚ)
    (ext : Bool) :
    (now - t.last_notification_time.getD 0 < 10 →
      send_notification t value now ext = (false, t))
    ∧ (now - t.last_notification_time.getD 0 ≥ 10 →
      (∃ last, t.last_notification_value = some last ∧
        rabs (value - last) < 0.0005) →
      send_notification t value now ext = (false, t))
    ∧ (now - t.last_notification_time.getD 0 ≥ 10 →
      (∀ last, t.last_notification_value = some last →
        rabs (value - last) ≥ 0.0005) →
      send_notification t value now ext =
        (ext, if ext then ⟨some now, some value⟩ else t)) := by
  refine ⟨fun h => by simp [send_notification, h], ?_, ?_⟩
  · rintro h ⟨last, hl, hd⟩
    simp [send_notification, not_lt.mpr h, hl, hd]
  · intro h hall
    cases hv : t.last_notification_value with
    | none => cases ext <;> simp [send_notification, not_lt.mpr h, hv]
    | some last =>
        have hge := hall last hv
        cases ext <;>
          simp [send_notification, not_lt.mpr h, hv, not_lt.mpr hge]

/-- Witness for `send_notification_gate_spec`: a send inside the cooldown is
rejected; a near-duplicate value after cooldown is rejected; a fresh value
after cooldown is delivered and recorded. -/
theorem send_notification_gate_spec_witness :
    (send_notification ⟨some 95, some 0.1⟩ 0.6 100 true =
      (false, ⟨some 95, some 0.1⟩))
    ∧ (send_notification ⟨some 80, some 0.6⟩ 0.6001 100 true =
      (false, ⟨some 80, some 0.6⟩))
    ∧ (send_notification ⟨some 80, some 0.1⟩ 0.6 100 true =
      (true, ⟨some 100, some 0.6⟩)) :=
  ⟨(send_notification_gate_spec ⟨some 95, some 0.1⟩ 0.6 100 true).1
      (by norm_num),
   (send_notification_gate_spec ⟨some 80, some 0.6⟩ 0.6001 100 true).2.1
      (by norm_num) ⟨0.6, rfl, by norm_num [rabs]⟩,
   (send_notification_gate_spec ⟨some 80, some 0.1⟩ 0.6 100 true).2.2
      (by norm_num)
      (by
        rintro last hl
        simp only [Option.some.injEq] at hl
        subst hl
        norm_num [rabs])⟩

/-- The boolean forward decision of `start.on_message`, characterised: it is
`true` exactly on a first observation, a changed top-10 slice on either
side, or at least five seconds since the last forward (the absent last time
is read as 0, which only matters on unreachable states). -/
theorem should_send_snapshot_iff (c : ChangeState) (snap : Snapshot)
    (now : ℚ) :
    should_send_snapshot c snap now = true ↔
      (c.last_sent_data = none ∨
        (∃ last, c.last_sent_data = some last ∧
          (last.bids.take 10 ≠ snap.bids.take 10 ∨
            last.asks.take 10 ≠ snap.asks.take 10)) ∨
        now - c.last_sent_time.getD 0 ≥ 5) := by
  unfold should_send_snapshot
  cases hv : c.last_sent_data with
  | none => simp
  | some last => simp [or_assoc]

/-- C5: the change gate forwards exactly when no prior forwarded snapshot
exists, or the top-10 bid or ask levels differ from the previously forwarded
ones, or at least 5 seconds elapsed since the last forward; on a forward the
stored snapshot and time become the current ones, otherwise nothing is
updated. -/
theorem changeGateStep_spec (c : ChangeState) (snap : Snapshot) (now : ℚ) :
    ((changeGateStep c snap now).1 = true ↔
      (c.last_sent_data = none ∨
        (∃ last, c.last_sent_data = some last ∧
          (last.bids.take 10 ≠ snap.bids.take 10 ∨
            last.asks.take 10 ≠ snap.asks.take 10)) ∨
        now - c.last_sent_time.getD 0 ≥ 5))
    ∧ ((changeGateStep c snap now).2 =
        if (changeGateStep c snap now).1 then ⟨some snap, some now⟩ else c) := by
  have h := should_send_snapshot_iff c snap now
  unfold changeGateStep
  cases hs : should_send_snapshot c snap now with
  | false =>
      rw [hs] at h
      constructor
      · simpa using h
      · simp
  | true =>
      rw [hs] at h
      constructor
      · simpa using h
      · simp

/-- Everything in an upserted side is the new entry or was already there. -/
theorem mem_sideUpsert (side : Side) (p q : ℚ) (e : ℚ × ℚ) :
    e ∈ sideUpsert side p q → e = (p, q) ∨ e ∈ side := by
  induction side with
  | nil =>
      intro he
      simp [sideUpsert] at he
      exact Or.inl he
  | cons a rest ih =>
      intro he
      unfold sideUpsert at he
      by_cases hk : a.1 = p
      · rw [if_pos hk] at he
        rcases List.mem_cons.mp he with rfl | hmem
        · exact Or.inl rfl
        · exact Or.inr (List.mem_cons_of_mem _ hmem)
      · rw [if_neg hk] at he
        rcases List.mem_cons.mp he with rfl | hmem
        · exact Or.inr (List.mem_cons_self _ _)
        · rcases ih hmem with h1 | h2
          · exact Or.inl h1
          · exact Or.inr (List.mem_cons_of_mem _ h2)

/-- Everything in a side after one delta entry is a well-formed entry with
non-zero quantity or was already there: a removal entry never inserts. -/
theorem mem_applySideEntry (side : Side) (entry : RawEntry) (e : ℚ × ℚ) :
    e ∈ applySideEntry side entry →
      (∃ pq, entry = some pq ∧ pq.2 ≠ 0 ∧ e = pq) ∨ e ∈ side := by
  cases entry with
  | none => exact fun he => Or.inr he
  | some pq =>
      obtain ⟨p, q⟩ := pq
      intro he
      have he2 : e ∈ (if q = 0 then sideRemove side p else sideUpsert side p q) := he
      by_cases hq : q = 0
      · rw [if_pos hq] at he2
        exact Or.inr (List.mem_of_mem_filter he2)
      · rw [if_neg hq] at he2
        rcases mem_sideUpsert side p q e he2 with rfl | hmem
        · exact Or.inl ⟨(p, q), rfl, hq, rfl⟩
        · exact Or.inr hmem

/-- Everything in a side after a whole entry list is a well-formed entry of
the list with non-zero quantity or was already there. -/
theorem mem_foldl_applySideEntry (entries : List RawEntry) :
    ∀ (side : Side) (e : ℚ × ℚ), e ∈ entries.foldl applySideEntry side →
      (∃ pq, some pq ∈ entries ∧ pq.2 ≠ 0 ∧ e = pq) ∨ e ∈ side := by
  induction entries with
  | nil => exact fun side e he => Or.inr he
  | cons a rest ih =>
      intro side e he
      rw [List.foldl_cons] at he
      rcases ih _ _ he with ⟨pq, hmem, hq, heq⟩ | hside
      · exact Or.inl ⟨pq, List.mem_cons_of_mem _ hmem, hq, heq⟩
      · rcases mem_applySideEntry _ _ _ hside with ⟨pq, ha, hq, heq⟩ | h2
        · exact Or.inl ⟨pq, List.mem_cons.mpr (Or.inl ha.symm), hq, heq⟩
        · exact Or.inr h2

/-- Everything in a snapshot-built side is one of the snapshot entries or
came from the accumulator. -/
theorem mem_snapshotSide (entries : List (ℚ × ℚ)) :
    ∀ (side : Side) (e : ℚ × ℚ),
      e ∈ entries.foldl (fun acc x => sideUpsert acc x.1 x.2) side →
      e ∈ entries ∨ e ∈ side := by
  induction entries with
  | nil => exact fun side e he => Or.inr he
  | cons a rest ih =>
      intro side e he
      rw [List.foldl_cons] at he
      rcases ih _ _ he with hmem | hside
      · exact Or.inl (List.mem_cons_of_mem _ hmem)
      · rcases mem_sideUpsert _ _ _ _ hside with rfl | h2
        · exact Or.inl (by simp)
        · exact Or.inr h2

/-- C6 counterexample: the snapshot path of `start` stores quantities
verbatim, so a snapshot carrying a zero quantity produces a book that
violates the strict-positivity invariant — the claim fails as stated for
books built from an arbitrary initial snapshot. -/
theorem snapshotBook_zero_qty_cex :
    ¬ BookPositive (snapshotBook [(100, 0)] [(1, 1)]) := by
  intro h
  have h0 := h.1 (100, 0) (by simp [snapshotBook, sideUpsert])
  norm_num at h0

/-- C6 (amended): for books reachable from an initial snapshot whose
quantities are strictly positive, or from the empty book, closed under
deltas whose well-formed entries carry non-negative quantities, every stored
bid and ask quantity is strictly positive; a zero-quantity level is never
stored (the `qty == 0` branch removes instead of storing). -/
theorem reachablePos_book_positive (b : Book) (h : ReachablePos b) :
    BookPositive b := by
  induction h with
  | snap bids asks hb ha =>
      constructor
      · intro e he
        rcases mem_snapshotSide bids [] e he with hm | hm
        · exact hb e hm
        · cases hm
      · intro e he
        rcases mem_snapshotSide asks [] e he with hm | hm
        · exact ha e hm
        · cases hm
  | empty =>
      exact ⟨fun e he => absurd he (List.not_mem_nil e),
        fun e he => absurd he (List.not_mem_nil e)⟩
  | step b d hd _ ih =>
      constructor
      · intro e he
        rcases mem_foldl_applySideEntry d.bids b.bids e he with
          ⟨pq, hmem, hq, heq⟩ | hm
        · subst heq
          exact (hd _ (List.mem_append_left _ hmem) e rfl).lt_of_ne
            (Ne.symm hq)
        · exact ih.1 e hm
      · intro e he
        rcases mem_foldl_applySideEntry d.asks b.asks e he with
          ⟨pq, hmem, hq, heq⟩ | hm
        · subst heq
          exact (hd _ (List.mem_append_right _ hmem) e rfl).lt_of_ne
            (Ne.symm hq)
        · exact ih.2 e hm

/-- Witness for `reachablePos_book_positive`: a positive snapshot followed
by a delta that removes one level and skips a malformed entry yields a
positive book. -/
theorem reachablePos_book_positive_witness :
    BookPositive (applyDelta (snapshotBook [(2, 3)] [(4, 5)])
      ⟨[some (2, 0)], [none]⟩) :=
  reachablePos_book_positive _
    (ReachablePos.step _ _
      (by
        rintro e he pq hpq
        simp at he
        rcases he with rfl | rfl
        · rw [Option.some.injEq] at hpq
          subst hpq
          norm_num
        · exact Option.noConfusion hpq)
      (ReachablePos.snap [(2, 3)] [(4, 5)]
        (by
          intro e he
          simp only [List.mem_singleton] at he
          subst he
          norm_num)
        (by
          intro e he
          simp only [List.mem_singleton] at he
          subst he
          norm_num)))

/-- After a removal the removed price has no entry. -/
theorem sideLookup_remove (side : Side) (p : ℚ) :
    sideLookup (sideRemove side p) p = none := by
  unfold sideLookup sideRemove
  induction side with
  | nil => rfl
  | cons a rest ih =>
      by_cases hk : a.1 = p
      · simp [List.filter_cons, hk, ih]
      · simp [List.filter_cons, List.find?_cons, hk, ih]

/-- Removing an absent price is a no-op. -/
theorem sideRemove_absent (side : Side) (p : ℚ)
    (h : sideLookup side p = none) : sideRemove side p = side := by
  induction side with
  | nil => rfl
  | cons a rest ih =>
      unfold sideLookup at h
      rw [List.find?_cons] at h
      by_cases hk : a.1 = p
      · simp [hk] at h
      · simp only [hk, decide_False] at h
        unfold sideRemove
        rw [List.filter_cons]
        simp only [hk, ne_eq, not_false_iff, decide_True, if_true]
        exact congrArg (a :: ·) (ih h)

/-- After an upsert the upserted price maps to the new quantity. -/
theorem sideLookup_upsert (side : Side) (p q : ℚ) :
    sideLookup (sideUpsert side p q) p = some q := by
  induction side with
  | nil => simp [sideUpsert, sideLookup, List.find?_cons]
  | cons a rest ih =>
      unfold sideUpsert
      by_cases hk : a.1 = p
      · rw [if_pos hk]
        simp [sideLookup, List.find?_cons]
      · rw [if_neg hk]
        unfold sideLookup
        rw [List.find?_cons]
        simp only [hk, decide_False]
        exact ih

/-- C7: `_update_orderbook` processes each entry independently — a
zero-quantity entry removes the price (a no-op when the price is absent,
and the price is gone afterwards), any other entry upserts the price to the
new quantity, and a malformed entry is skipped while the remaining entries
of the same delta are still applied. -/
theorem applyDelta_entry_spec (side : Side) (p q : ℚ) (es : List RawEntry) :
    (applySideEntry side (some (p, 0)) = sideRemove side p)
    ∧ (sideLookup (applySideEntry side (some (p, 0))) p = none)
    ∧ (sideLookup side p = none → applySideEntry side (some (p, 0)) = side)
    ∧ (q ≠ 0 →
        applySideEntry side (some (p, q)) = sideUpsert side p q ∧
        sideLookup (applySideEntry side (some (p, q))) p = some q)
    ∧ (List.foldl applySideEntry side (none :: es) =
        List.foldl applySideEntry side es) := by
  refine ⟨by simp [applySideEntry], ?_, ?_, ?_, rfl⟩
  · simp [applySideEntry, sideLookup_remove]
  · intro h
    simp [applySideEntry, sideRemove_absent side p h]
  · intro hq
    constructor
    · simp [applySideEntry, hq]
    · simp [applySideEntry, hq, sideLookup_upsert]

/-- Witness for `applyDelta_entry_spec`: removing the absent price 3 from
the one-level side leaves it alone, and upserting price 3 with quantity 7
makes it retrievable. -/
theorem applyDelta_entry_spec_witness :
    (applySideEntry [(1, 2)] (some (3, 0)) = [(1, 2)])
    ∧ (sideLookup (applySideEntry [(1, 2)] (some (3, 7))) 3 = some 7) :=
  ⟨(applyDelta_entry_spec [(1, 2)] 3 7 []).2.2.1
      (by norm_num [sideLookup, List.find?_cons]),
   ((applyDelta_entry_spec [(1, 2)] 3 7 []).2.2.2.1 (by norm_num)).2⟩

/-- The conditional slicing of `calculate_imbalance_ratio` is `List.take`:
when the list is shorter than `top_n`, taking `top_n` returns the whole
list. -/
theorem take_branch_eq {α : Type} (l : List α) (n : ℕ) :
    (if l.length ≥ n then l.take n else l) = l.take n := by
  split
  · rfl
  · next h =>
      exact (List.take_of_length_le (Nat.le_of_lt (Nat.lt_of_not_le h))).symm

/-- C8: the imbalance computation sums price·quantity over the first
`top_n` levels of each side (fewer when a side is shorter), yields `none`
exactly when the total volume is zero — the division is guarded, the
function is total — and otherwise returns
`(bidVolume − askVolume) / (bidVolume + askVolume)`. -/
theorem calculate_imbalance_spec (bids asks : List (ℚ × ℚ)) (top_n : ℕ) :
    (calculate_imbalance_ratio bids asks top_n = none ↔
      ((bids.take top_n).map (fun e => e.1 * e.2)).sum +
        ((asks.take top_n).map (fun e => e.1 * e.2)).sum = 0)
    ∧ (((bids.take top_n).map (fun e => e.1 * e.2)).sum +
        ((asks.take top_n).map (fun e => e.1 * e.2)).sum ≠ 0 →
      calculate_imbalance_ratio bids asks top_n =
        some ((((bids.take top_n).map (fun e => e.1 * e.2)).sum -
            ((asks.take top_n).map (fun e => e.1 * e.2)).sum) /
          (((bids.take top_n).map (fun e => e.1 * e.2)).sum +
            ((asks.take top_n).map (fun e => e.1 * e.2)).sum))) := by
  by_cases h : ((bids.take top_n).map (fun e => e.1 * e.2)).sum +
      ((asks.take top_n).map (fun e => e.1 * e.2)).sum = 0 <;>
    simp [calculate_imbalance_ratio, take_branch_eq, h]

/-- Witness for `calculate_imbalance_spec`: one bid level (2, 3) and one ask
level (1, 1) give volumes 6 and 1 and ratio 5/7. -/
theorem calculate_imbalance_spec_witness :
    calculate_imbalance_ratio [(2, 3)] [(1, 1)] 1 = some (5 / 7) := by
  have h := (calculate_imbalance_spec [(2, 3)] [(1, 1)] 1).2 (by norm_num)
  rw [h]
  norm_num

/-- C9 counterexample: a fetched snapshot with an empty bids list is not
rejected — the symbol's previous book is replaced by a book with an empty
bid side; no failure of any kind occurs.  This refutes the claim that an
empty-sided snapshot fails and leaves the book unreplaced. -/
theorem startSnapshot_empty_bids_cex :
    startSnapshot (fun _ => some ⟨[(2, 3)], [(4, 5)]⟩) "X"
        (some ([], [(1, 1)])) "X" = some ⟨[], [(1, 1)]⟩
    ∧ (⟨[], [(1, 1)]⟩ : Book) ≠ ⟨[(2, 3)], [(4, 5)]⟩ := by
  constructor
  · simp [startSnapshot, snapshotBook, sideUpsert]
  · simp

/-- C9 (amended): the snapshot path never fails on empty sides — whenever
the fetch returns data the book is replaced wholesale, empty bids or asks
included, and only a failed fetch leaves the store untouched; empty-sided
messages are instead dropped downstream by `parse_orderbook_data`, so they
never reach the imbalance computation. -/
theorem startSnapshot_replaces (store : Store) (sym sym2 : String)
    (bids asks : List (ℚ × ℚ)) :
    (startSnapshot store sym (some (bids, asks)) sym =
      some (snapshotBook bids asks))
    ∧ (startSnapshot store sym none = store)
    ∧ (bids = [] ∨ asks = [] → parse_orderbook_data sym2 bids asks = none) := by
  refine ⟨by simp [startSnapshot], rfl, ?_⟩
  intro h
  unfold parse_orderbook_data
  rcases h with h | h <;> simp [h]

/-- Witness for `startSnapshot_replaces`: an empty-bids snapshot replaces
the (absent) book and the same data is dropped by the parser. -/
theorem startSnapshot_replaces_witness :
    (startSnapshot (fun _ => none) "Y" (some ([], [(1, 1)])) "Y" =
      some (snapshotBook [] [(1, 1)]))
    ∧ parse_orderbook_data "Y" ([] : List (ℚ × ℚ)) [(1, 1)] = none :=
  ⟨(startSnapshot_replaces (fun _ => none) "Y" "Y" [] [(1, 1)]).1,
   (startSnapshot_replaces (fun _ => none) "Y" "Y" [] [(1, 1)]).2.2
      (Or.inl rfl)⟩

/-- C10: applying a delta for a symbol with no stored book never fails: the
store gets an empty book for the symbol and the delta entries are applied to
it, with no snapshot ever required for the symbol. -/
theorem update_orderbook_missing (store : Store) (sym : String) (d : Delta)
    (h : store sym = none) :
    update_orderbook store sym d sym = some (applyDelta ⟨[], []⟩ d) := by
  unfold update_orderbook
  simp [h]

/-- Witness for `update_orderbook_missing`: a delta for a fresh symbol lands
in a newly created empty book. -/
theorem update_orderbook_missing_witness :
    update_orderbook (fun _ => none) "Z" ⟨[some (1, 2)], []⟩ "Z" =
      some (applyDelta ⟨[], []⟩ ⟨[some (1, 2)], []⟩) :=
  update_orderbook_missing (fun _ => none) "Z" ⟨[some (1, 2)], []⟩ rfl
